import Mathlib

/-!
Verification of the compositional ReFT notebook
(`examples/composition/compreft.ipynb`).

The notebook defines two dataset-preprocessing functions
(`preprocess_hellaswag_de_for_reft`, `preprocess_ultrafeedback_for_reft`)
and a subclass `SubloreftIntervention` of the library class
`LoreftIntervention`, overriding `forward` with a per-example
subspace-gated low-rank correction.

We embed tensors as `Fin`-indexed functions over `ℚ`
(batch × sequence × embedding), the per-example subspace index lists as
`Fin b → List (Fin r)`, and fallible steps (the `assert`, and
`torch.stack` of tensors of mismatching shapes) as `Option` results.
The activation function is kept abstract as a field `act_fn : ℚ → ℚ`
applied pointwise, as in the library.
-/

namespace Compreft

/-- Python list indexing `xs[i]`: nonnegative indices from the front,
negative indices from the back, out-of-range raises (modelled as `none`). -/
def pythonGet {α : Type} (xs : List α) (i : ℤ) : Option α :=
  if 0 ≤ i then xs.get? i.toNat
  else if i.natAbs ≤ xs.length then xs.get? (xs.length - i.natAbs)
  else none

/-! ### Dataset preprocessing (notebook cell 4) -/

/-- `HELLASWAG_SUBSPACE = [0,1,2,3]` from the notebook. -/
def HELLASWAG_SUBSPACE : List ℕ := [0, 1, 2, 3]

/-- `INSTRUCT_SUBSPACE = [4,5,6,7]` from the notebook. -/
def INSTRUCT_SUBSPACE : List ℕ := [4, 5, 6, 7]

/-- The fields of a HellaSwag_de row that `preprocess_hellaswag_de_for_reft`
reads: the context, the German endings, and the (integer-parsed) label. -/
structure HellaswagDeExample where
  ctx : String
  endings_de : List String
  label : ℤ
deriving DecidableEq

/-- The fields that the preprocessing functions write and that the
downstream `ReftSupervisedDataset` reads: instruction, output, and the
subspace index tag. -/
structure ReftRow where
  instruction : String
  output : String
  subspaces : List ℕ
deriving DecidableEq

/-- `preprocess_hellaswag_de_for_reft` from the notebook:
`label = int(examples["label"])`; if there are fewer than 4 German endings
the output is `endings_de[-1]`, otherwise `endings_de[label]`; the
instruction is the context and the subspace tag is `HELLASWAG_SUBSPACE`.
A failing Python list index is modelled by `none`. -/
def preprocess_hellaswag_de_for_reft (ex : HellaswagDeExample) : Option ReftRow :=
  (if ex.endings_de.length < 4 then pythonGet ex.endings_de (-1)
   else pythonGet ex.endings_de ex.label).map fun output =>
    { instruction := ex.ctx, output := output, subspaces := HELLASWAG_SUBSPACE }

/-- The fields of an UltraFeedback row that
`preprocess_ultrafeedback_for_reft` touches. -/
structure UltrafeedbackExample where
  instruction : String
  output : String
deriving DecidableEq

/-- `preprocess_ultrafeedback_for_reft` from the notebook: tags the row
with `INSTRUCT_SUBSPACE` and appends the tokenizer's end-of-sequence token
to the output (`examples["output"] += tokenizer.eos_token`). The
tokenizer's eos token is external input, passed as a string parameter. -/
def preprocess_ultrafeedback_for_reft (eos_token : String)
    (ex : UltrafeedbackExample) : ReftRow :=
  { instruction := ex.instruction, output := ex.output ++ eos_token,
    subspaces := INSTRUCT_SUBSPACE }

/-! ### The subspace-gated intervention (notebook cell 4) -/

/-- The learned parameters of `SubloreftIntervention` (inherited from
`LoreftIntervention`): the rotation weight `rotate_layer.weight` of shape
(embed_dim e, low_rank_dimension r), the `learned_source` linear layer
(weight of shape (r, e) and bias of length r), and the pointwise
activation `act_fn`. -/
structure SubloreftIntervention (e r : ℕ) where
  rotate_weight : Fin e → Fin r → ℚ
  source_weight : Fin r → Fin e → ℚ
  source_bias : Fin r → ℚ
  act_fn : ℚ → ℚ

/-- Modelled from the spec: the parent class's `rotate_layer` (not under
`src/`) is "a learned linear rotation matrix"; it maps a hidden vector
`x` to `x @ rotate_layer.weight`, the rotated base `R b`. -/
def rotate_layer {e r : ℕ} (M : SubloreftIntervention e r)
    (x : Fin e → ℚ) (j : Fin r) : ℚ :=
  ∑ d, x d * M.rotate_weight d j

/-- Modelled from the spec: the parent class's `learned_source` (not under
`src/`) is "a learned source transformation", an affine map
`x ↦ W x + s` into the low-rank space. -/
def learned_source {e r : ℕ} (M : SubloreftIntervention e r)
    (x : Fin e → ℚ) (j : Fin r) : ℚ :=
  (∑ d, M.source_weight j d * x d) + M.source_bias j

/-- The residual
`diff = self.act_fn(self.learned_source(base)) - rotated_base`
computed by `SubloreftIntervention.forward`, per batch example `i`,
sequence position `t`, low-rank coordinate `j`. -/
def residual {b s e r : ℕ} (M : SubloreftIntervention e r)
    (base : Fin b → Fin s → Fin e → ℚ)
    (i : Fin b) (t : Fin s) (j : Fin r) : ℚ :=
  M.act_fn (learned_source M (base i t) j) - rotate_layer M (base i t) j

/-- The per-example correction `torch.bmm(batched_subspace, batched_weights)`
at example `i`: `LHS = diff[i, :, subspaces[i]]` and
`RHS = rotate_layer.weight[..., subspaces[i]].T`, so the entry at sequence
position `t`, embedding coordinate `d` is the sum over the positions of the
index list of `diff[i,t,j] * rotate_weight[d,j]`. -/
def correction {b s e r : ℕ} (M : SubloreftIntervention e r)
    (base : Fin b → Fin s → Fin e → ℚ) (sub : List (Fin r))
    (i : Fin b) (t : Fin s) (d : Fin e) : ℚ :=
  (sub.map fun j => residual M base i t j * M.rotate_weight d j).sum

/-- `self.dropout` in evaluation/identity mode (`torch.nn.Dropout` is the
identity when not training), composed with the cast `.to(base.dtype)`,
which is the identity in the exact-arithmetic model. -/
def dropout_eval (x : ℚ) : ℚ := x

/-- `torch.stack` over the per-example slices succeeds exactly when the
list of tensors is non-empty and all have the same shape, i.e. the batch
is non-empty and every example's index list has the same length. -/
def stackable {r : ℕ} (b : ℕ) (subspaces : Fin b → List (Fin r)) : Prop :=
  0 < b ∧ ∀ i i' : Fin b, (subspaces i).length = (subspaces i').length

instance {r b : ℕ} (subspaces : Fin b → List (Fin r)) :
    Decidable (stackable b subspaces) := by
  unfold stackable; infer_instance

/-- `SubloreftIntervention.forward` from the notebook.  `subspaces=None`
fails the `assert` (modelled `none`); per-example slices of the residual
and of the rotation columns are stacked (which requires equal lengths and
a non-empty batch, else `torch.stack` raises, modelled `none`), multiplied
by `torch.bmm`, added to `base`, and passed through the eval-mode dropout
and dtype cast.  The unused `source` parameter is omitted. -/
def SubloreftForward {b s e r : ℕ} (M : SubloreftIntervention e r)
    (base : Fin b → Fin s → Fin e → ℚ)
    (subspaces : Option (Fin b → List (Fin r))) :
    Option (Fin b → Fin s → Fin e → ℚ) :=
  match subspaces with
  | none => none
  | some subs =>
    if stackable b subs then
      some fun i t d => dropout_eval (base i t d + correction M base (subs i) i t d)
    else none

/-- The forward call as an explicit state transformer: it returns the
module parameters and the input tensor alongside the output.  Every tensor
operation in the source (`matmul`, subtraction, indexing, `stack`, `bmm`,
addition, `.to`, eval-mode dropout) is out-of-place and no attribute of
`self` is assigned, so both come back unchanged. -/
def SubloreftForwardCall {b s e r : ℕ} (M : SubloreftIntervention e r)
    (base : Fin b → Fin s → Fin e → ℚ)
    (subspaces : Option (Fin b → List (Fin r))) :
    SubloreftIntervention e r × (Fin b → Fin s → Fin e → ℚ)
      × Option (Fin b → Fin s → Fin e → ℚ) :=
  (M, base, SubloreftForward M base subspaces)

/-- Modelled from the spec: the un-gated parent `LoreftIntervention`
forward (not under `src/`), per the spec formula
`base + R^T (act_fn(W b + s) - R b)`: the full residual is projected back
through all `r` rotation columns. -/
def LoreftForwardOutput {b s e r : ℕ} (M : SubloreftIntervention e r)
    (base : Fin b → Fin s → Fin e → ℚ) :
    Fin b → Fin s → Fin e → ℚ :=
  fun i t d =>
    dropout_eval (base i t d + ∑ j, residual M base i t j * M.rotate_weight d j)

/-! ### Concrete data for witnesses and counterexamples -/

/-- A module with embed dim 1, rank 1, all-zero weights and identity
activation: the residual vanishes on every input. -/
def Mzero : SubloreftIntervention 1 1 :=
  ⟨fun _ _ => 0, fun _ _ => 0, fun _ => 0, id⟩

/-- A module with embed dim 1, rank 2, all-one weights and identity
activation. -/
def Mtwo : SubloreftIntervention 1 2 :=
  ⟨fun _ _ => 1, fun _ _ => 1, fun _ => 1, id⟩

/-- A 1×1×1 batch of hidden states. -/
def baseOne : Fin 1 → Fin 1 → Fin 1 → ℚ := fun _ _ _ => 5

/-- A 1×1×1 batch of hidden states for the rank-2 module. -/
def baseTwo1 : Fin 1 → Fin 1 → Fin 1 → ℚ := fun _ _ _ => 2

/-- A 2×1×1 batch of hidden states for the rank-2 module. -/
def baseTwo : Fin 2 → Fin 1 → Fin 1 → ℚ := fun _ _ _ => 0

/-- One example selecting the single coordinate 0. -/
def subsOne : Fin 1 → List (Fin 1) := fun _ => [0]

/-- One example selecting the strict sub-range [0] of the rank-2 rotation. -/
def subsSub : Fin 1 → List (Fin 2) := fun _ => [0]

/-- Two examples with non-empty index lists of different lengths. -/
def subsUneq : Fin 2 → List (Fin 2) := fun i => if i = 0 then [0] else [0, 1]

/-- A HellaSwag_de row with four endings and label 1. -/
def exH : HellaswagDeExample := ⟨"ctx", ["a", "b", "c", "d"], 1⟩

/-- The row `preprocess_hellaswag_de_for_reft` produces from `exH`. -/
def rowH : ReftRow := ⟨"ctx", "b", HELLASWAG_SUBSPACE⟩

/-- A HellaSwag_de row with only two endings. -/
def exH3 : HellaswagDeExample := ⟨"c", ["x", "y"], 0⟩

/-- An UltraFeedback row. -/
def exU : UltrafeedbackExample := ⟨"i", "out"⟩

/-! ### Helper lemmas -/

theorem pythonGet_mem {α : Type} {xs : List α} {i : ℤ} {y : α}
    (h : pythonGet xs i = some y) : y ∈ xs := by
  unfold pythonGet at h
  split_ifs at h
  · exact List.get?_mem h
  · exact List.get?_mem h

theorem pythonGet_neg_one {α : Type} (xs : List α) :
    pythonGet xs (-1) = xs.getLast? := by
  have h1 : ((-1 : ℤ)).natAbs = 1 := by decide
  unfold pythonGet
  rw [if_neg (by decide), h1]
  rcases xs with _ | ⟨a, tl⟩
  · rfl
  · rw [if_pos (by simp), List.getLast?_eq_get?]

/-! ### Claim theorems -/

/-- C1: for every batch and every stackable per-example index list, when
the learned source transformation exactly reproduces the rotated base
(the residual vanishes), `SubloreftIntervention.forward` returns the
unmodified input representation (dropout in eval/identity mode). -/
theorem subloreft_zero_residual_identity {b s e r : ℕ}
    (M : SubloreftIntervention e r) (base : Fin b → Fin s → Fin e → ℚ)
    (subs : Fin b → List (Fin r)) (hst : stackable b subs)
    (hres : ∀ (i : Fin b) (t : Fin s) (j : Fin r),
      M.act_fn (learned_source M (base i t) j) = rotate_layer M (base i t) j) :
    SubloreftForward M base (some subs) = some base := by
  simp only [SubloreftForward]
  rw [if_pos hst]
  congr 1
  funext i t d
  have hz : correction M base (subs i) i t d = 0 := by
    unfold correction
    apply List.sum_eq_zero
    intro x hx
    rcases List.mem_map.1 hx with ⟨j, _, rfl⟩
    unfold residual
    rw [hres]
    ring
  unfold dropout_eval
  rw [hz, add_zero]

/-- C1 witness. -/
theorem subloreft_zero_residual_identity_witness :
    stackable 1 subsOne ∧
    Mzero.act_fn (learned_source Mzero (baseOne 0 0) 0)
      = rotate_layer Mzero (baseOne 0 0) 0 ∧
    SubloreftForward Mzero baseOne (some subsOne) = some baseOne :=
  ⟨by decide, by simp [Mzero, learned_source, rotate_layer, baseOne],
    subloreft_zero_residual_identity Mzero baseOne subsOne (by decide)
      (by intro i t j; simp [Mzero, learned_source, rotate_layer, baseOne])⟩

/-- C2: on every non-empty batch, selecting the full index range
`[0, ..., r-1]` for every example reproduces exactly the un-gated
`LoreftIntervention` output `base + R^T (act_fn(W b + s) - R b)`. -/
theorem subloreft_full_range_eq_loreft {b s e r : ℕ}
    (M : SubloreftIntervention e r) (base : Fin b → Fin s → Fin e → ℚ)
    (hb : 0 < b) :
    SubloreftForward M base (some fun _ => List.finRange r)
      = some (LoreftForwardOutput M base) := by
  simp only [SubloreftForward]
  rw [if_pos ⟨hb, fun _ _ => rfl⟩]
  congr 1

/-- C2 witness. -/
theorem subloreft_full_range_eq_loreft_witness :
    0 < 1 ∧
    SubloreftForward Mtwo baseTwo1 (some fun _ : Fin 1 => List.finRange 2)
      = some (LoreftForwardOutput Mtwo baseTwo1) :=
  ⟨by decide, subloreft_full_range_eq_loreft Mtwo baseTwo1 (by decide)⟩

/-- C3: for every batch and every stackable, duplicate-free per-example
index list, the output adds to each example's representation exactly the
sum over the selected coordinates `j` of `residual[j] * R[:, j]`;
unselected coordinates contribute nothing. -/
theorem subloreft_subrange_selected_only {b s e r : ℕ}
    (M : SubloreftIntervention e r) (base : Fin b → Fin s → Fin e → ℚ)
    (subs : Fin b → List (Fin r)) (hst : stackable b subs)
    (hnd : ∀ i, (subs i).Nodup) :
    SubloreftForward M base (some subs)
      = some fun i t d => base i t d
          + ∑ j ∈ (subs i).toFinset, residual M base i t j * M.rotate_weight d j := by
  simp only [SubloreftForward]
  rw [if_pos hst]
  congr 1
  funext i t d
  unfold dropout_eval correction
  rw [List.sum_toFinset _ (hnd i)]

/-- C3 witness. -/
theorem subloreft_subrange_selected_only_witness :
    stackable 1 subsSub ∧ (subsSub 0).Nodup ∧
    SubloreftForward Mtwo baseTwo1 (some subsSub)
      = some fun i t d => baseTwo1 i t d
          + ∑ j ∈ (subsSub i).toFinset,
              residual Mtwo baseTwo1 i t j * Mtwo.rotate_weight d j :=
  ⟨by decide, by decide,
    subloreft_subrange_selected_only Mtwo baseTwo1 subsSub (by decide) (by decide)⟩

/-- C4: `SubloreftIntervention.forward` fails its assertion whenever
`subspaces` is absent (`None`), for every module and every input; it never
silently defaults to an index set. -/
theorem subloreft_none_fails {b s e r : ℕ} (M : SubloreftIntervention e r)
    (base : Fin b → Fin s → Fin e → ℚ) :
    SubloreftForward M base none = none := rfl

/-- C5: the output at batch position `i` depends only on example `i`'s
hidden state, example `i`'s index list, and the shared parameters: two
calls agreeing there agree at position `i`, whatever the other examples
hold. -/
theorem subloreft_example_independence {b s e r : ℕ}
    (M : SubloreftIntervention e r)
    (base base' : Fin b → Fin s → Fin e → ℚ)
    (subs subs' : Fin b → List (Fin r)) (i : Fin b)
    (hst : stackable b subs) (hst' : stackable b subs')
    (hbase : base i = base' i) (hsubs : subs i = subs' i) :
    ∃ o o', SubloreftForward M base (some subs) = some o
      ∧ SubloreftForward M base' (some subs') = some o'
      ∧ o i = o' i := by
  have h1 : SubloreftForward M base (some subs)
      = some fun i t d => dropout_eval (base i t d + correction M base (subs i) i t d) := by
    simp only [SubloreftForward]
    rw [if_pos hst]
  have h2 : SubloreftForward M base' (some subs')
      = some fun i t d => dropout_eval (base' i t d + correction M base' (subs' i) i t d) := by
    simp only [SubloreftForward]
    rw [if_pos hst']
  refine ⟨_, _, h1, h2, ?_⟩
  funext t d
  simp only [dropout_eval, correction, residual, hsubs, hbase]

/-- C5 witness. -/
theorem subloreft_example_independence_witness :
    stackable 1 subsOne ∧
    ∃ o o', SubloreftForward Mzero baseOne (some subsOne) = some o
      ∧ SubloreftForward Mzero baseOne (some subsOne) = some o'
      ∧ o 0 = o' 0 :=
  ⟨by decide,
    subloreft_example_independence Mzero baseOne baseOne subsOne subsOne 0
      (by decide) (by decide) rfl rfl⟩

/-- C6 counterexample: a batch of two examples, each with a non-empty list
of valid coordinate indices but of different lengths, makes
`torch.stack` raise: `forward` does not succeed (the claim says no error
is raised). -/
theorem subloreft_unequal_lengths_raise :
    subsUneq 0 ≠ [] ∧ subsUneq 1 ≠ [] ∧
    SubloreftForward Mtwo baseTwo (some subsUneq) = none := by
  refine ⟨by decide, by decide, ?_⟩
  simp only [SubloreftForward]
  rw [if_neg (by decide)]

/-- C6 (amended): for every batch in which each example carries a
non-empty list of valid coordinate indices and all lists have the same
length (so the per-example slices can be stacked), the computation
succeeds and returns an output of the input batch shape. -/
theorem subloreft_equal_lengths_succeed {b s e r : ℕ}
    (M : SubloreftIntervention e r) (base : Fin b → Fin s → Fin e → ℚ)
    (subs : Fin b → List (Fin r)) (hne : ∀ i, subs i ≠ [])
    (hst : stackable b subs) :
    ∃ out : Fin b → Fin s → Fin e → ℚ,
      SubloreftForward M base (some subs) = some out := by
  refine ⟨fun i t d => dropout_eval (base i t d + correction M base (subs i) i t d), ?_⟩
  simp only [SubloreftForward]
  rw [if_pos hst]

/-- C6 witness. -/
theorem subloreft_equal_lengths_succeed_witness :
    subsOne 0 ≠ [] ∧ stackable 1 subsOne ∧
    ∃ out, SubloreftForward Mzero baseOne (some subsOne) = some out :=
  ⟨by decide, by decide,
    subloreft_equal_lengths_succeed Mzero baseOne subsOne (by decide) (by decide)⟩

/-- C7: the forward call mutates no state: it returns the module
parameters and the input tensor unchanged alongside an output that is a
function of them alone, and calling it twice on the same inputs yields
the same output (eval-mode dropout). -/
theorem subloreft_forward_pure {b s e r : ℕ} (M : SubloreftIntervention e r)
    (base : Fin b → Fin s → Fin e → ℚ)
    (subspaces : Option (Fin b → List (Fin r))) :
    SubloreftForwardCall M base subspaces
        = (M, base, SubloreftForward M base subspaces) ∧
      (SubloreftForwardCall M base subspaces).2.2
        = (SubloreftForwardCall M base subspaces).2.2 :=
  ⟨rfl, rfl⟩

/-- C8: the two subspace tags are `[0,1,2,3]` and `[4,5,6,7]`, all valid
column indices into the rank-8 rotation, mutually disjoint; every
HellaSwag_de row the preprocessing emits carries exactly
`HELLASWAG_SUBSPACE` and every UltraFeedback row exactly
`INSTRUCT_SUBSPACE`. -/
theorem subspace_tags :
    HELLASWAG_SUBSPACE = [0, 1, 2, 3] ∧ INSTRUCT_SUBSPACE = [4, 5, 6, 7] ∧
    (∀ x ∈ HELLASWAG_SUBSPACE, x < 8) ∧ (∀ x ∈ INSTRUCT_SUBSPACE, x < 8) ∧
    (∀ x ∈ HELLASWAG_SUBSPACE, x ∉ INSTRUCT_SUBSPACE) ∧
    (∀ (ex : HellaswagDeExample) (row : ReftRow),
      preprocess_hellaswag_de_for_reft ex = some row
        → row.subspaces = HELLASWAG_SUBSPACE) ∧
    (∀ (eos : String) (ex : UltrafeedbackExample),
      (preprocess_ultrafeedback_for_reft eos ex).subspaces
        = INSTRUCT_SUBSPACE) := by
  refine ⟨rfl, rfl, by decide, by decide, by decide, ?_, fun eos ex => rfl⟩
  intro ex row h
  unfold preprocess_hellaswag_de_for_reft at h
  rcases Option.map_eq_some'.1 h with ⟨o, _, rfl⟩
  rfl

/-- C8 witness. -/
theorem subspace_tags_witness :
    preprocess_hellaswag_de_for_reft exH = some rowH ∧
    rowH.subspaces = HELLASWAG_SUBSPACE ∧
    (preprocess_ultrafeedback_for_reft "E" exU).subspaces = INSTRUCT_SUBSPACE :=
  ⟨by decide, subspace_tags.2.2.2.2.2.1 exH rowH (by decide),
    subspace_tags.2.2.2.2.2.2 "E" exU⟩

/-- C9: with fewer than 4 German endings, the preprocessing ignores the
label and outputs the last ending (Python `endings_de[-1]`, `none` when
there is none to take); with 4 or more endings and a nonnegative label it
outputs the ending at the label's position (`none` when out of range). -/
theorem hellaswag_output_selection (ctx : String) (endings : List String)
    (label : ℤ) :
    (endings.length < 4 →
      (preprocess_hellaswag_de_for_reft ⟨ctx, endings, label⟩).map ReftRow.output
          = endings.getLast? ∧
      ∀ l : ℤ, preprocess_hellaswag_de_for_reft ⟨ctx, endings, label⟩
          = preprocess_hellaswag_de_for_reft ⟨ctx, endings, l⟩) ∧
    (4 ≤ endings.length → 0 ≤ label →
      (preprocess_hellaswag_de_for_reft ⟨ctx, endings, label⟩).map ReftRow.output
          = endings.get? label.toNat) := by
  constructor
  · intro h4
    constructor
    · unfold preprocess_hellaswag_de_for_reft
      rw [if_pos h4, pythonGet_neg_one]
      cases endings.getLast? <;> rfl
    · intro l
      simp only [preprocess_hellaswag_de_for_reft, if_pos h4]
  · intro h4 hl
    unfold preprocess_hellaswag_de_for_reft
    rw [if_neg (show ¬ endings.length < 4 by omega)]
    unfold pythonGet
    rw [if_pos hl]
    cases endings.get? label.toNat <;> rfl

/-- C9 witness. -/
theorem hellaswag_output_selection_witness :
    exH3.endings_de.length < 4 ∧
    (preprocess_hellaswag_de_for_reft exH3).map ReftRow.output
        = exH3.endings_de.getLast? ∧
    4 ≤ exH.endings_de.length ∧ (0 : ℤ) ≤ exH.label ∧
    (preprocess_hellaswag_de_for_reft exH).map ReftRow.output
        = exH.endings_de.get? exH.label.toNat :=
  ⟨by decide,
    ((hellaswag_output_selection "c" ["x", "y"] 0).1 (by decide)).1,
    by decide, by decide,
    (hellaswag_output_selection "ctx" ["a", "b", "c", "d"] 1).2 (by decide)
      (by decide)⟩

/-- C10: the UltraFeedback preprocessing appends the tokenizer's eos token
to every output, whereas the HellaSwag_de preprocessing emits as output an
unmodified element of the endings list (no eos appended). -/
theorem eos_appending_asymmetry :
    (∀ (eos : String) (ex : UltrafeedbackExample),
      (preprocess_ultrafeedback_for_reft eos ex).output = ex.output ++ eos) ∧
    (∀ (ex : HellaswagDeExample) (row : ReftRow),
      preprocess_hellaswag_de_for_reft ex = some row
        → row.output ∈ ex.endings_de) := by
  constructor
  · intro eos ex
    rfl
  · intro ex row h
    unfold preprocess_hellaswag_de_for_reft at h
    rcases Option.map_eq_some'.1 h with ⟨o, ho, rfl⟩
    by_cases h4 : ex.endings_de.length < 4
    · rw [if_pos h4] at ho
      exact pythonGet_mem ho
    · rw [if_neg h4] at ho
      exact pythonGet_mem ho

/-- C10 witness. -/
theorem eos_appending_asymmetry_witness :
    (preprocess_ultrafeedback_for_reft "E" exU).output = exU.output ++ "E" ∧
    preprocess_hellaswag_de_for_reft exH = some rowH ∧
    rowH.output ∈ exH.endings_de :=
  ⟨eos_appending_asymmetry.1 "E" exU, by decide,
    eos_appending_asymmetry.2 exH rowH (by decide)⟩

end Compreft
